import Mathlib

/-!
Verification development for the registry-mcp repository
(`src/registry_mcp/tools/registry_submission.py`).

The Python module is embedded shallowly:

* YAML/JSON values (`yaml.safe_load` results) become the inductive type
  `Yaml`; Python dicts are association lists with string keys (Python dict
  keys coming from the manipulated documents are always strings, lookups
  return the first binding, assignment replaces in place or appends —
  exactly Python's insertion-ordered dict on duplicate-free lists).
* Text-level inputs are modelled at the parsed-value level: a tool that
  takes YAML text takes an `Option Yaml` (`none` = `yaml.YAMLError` on
  parse, `some v` = `yaml.safe_load` result, `Yaml.null` for an empty
  document).  `yaml.dump` followed by `yaml.safe_load` is the identity on
  these values, so re-serialisation inside the tools is modelled as
  passing the value through.
* Side effects (file writes, the single HTTP POST) are returned as an
  explicit `Effect` trace; the HTTP response/failure is an injected
  `HttpOutcome` argument.
* Exception messages raised by libraries (jsonschema's `e.message`,
  `yaml`'s parse errors, `requests`' exception text) are abstracted to
  fixed strings; no theorem below inspects their text.
-/

/-- A parsed YAML/JSON value, the result of `yaml.safe_load`.  Mappings are
insertion-ordered association lists with string keys (the module only ever
uses string keys).  Floats do not occur in any document the module
constructs or checks structurally, so they are omitted. -/
inductive Yaml where
  | null : Yaml
  | bool (b : Bool) : Yaml
  | int (n : Int) : Yaml
  | str (s : String) : Yaml
  | list (xs : List Yaml) : Yaml
  | map (kvs : List (String × Yaml)) : Yaml
deriving Repr

mutual
/-- Python `==` on parsed YAML values (used by jsonschema's `uniqueItems`).
Mapping comparison is written order-sensitively; Python dict equality is
order-insensitive, but `uniqueItems` is only ever applied by this schema to
arrays whose items must be strings, where the two notions agree. -/
def yamlBeq : Yaml → Yaml → Bool
  | .null, .null => true
  | .bool a, .bool b => a == b
  | .int a, .int b => a == b
  | .str a, .str b => a == b
  | .list xs, .list ys => yamlBeqList xs ys
  | .map xs, .map ys => yamlBeqPairs xs ys
  | _, _ => false

/-- Pointwise `yamlBeq` on lists. -/
def yamlBeqList : List Yaml → List Yaml → Bool
  | [], [] => true
  | x :: xs, y :: ys => yamlBeq x y && yamlBeqList xs ys
  | _, _ => false

/-- Pointwise `yamlBeq` on mapping entries. -/
def yamlBeqPairs : List (String × Yaml) → List (String × Yaml) → Bool
  | [], [] => true
  | (k, x) :: xs, (k', y) :: ys => k == k' && yamlBeq x y && yamlBeqPairs xs ys
  | _, _ => false
end

/-- Python truthiness (`bool(v)`) on parsed YAML values: `None`, `False`,
`0`, `""`, `[]` and an empty mapping are falsy. -/
def Yaml.falsy : Yaml → Bool
  | .null => true
  | .bool b => !b
  | .int n => n == 0
  | .str s => s.isEmpty
  | .list xs => xs.isEmpty
  | .map kvs => kvs.isEmpty

/-- `d[k]` as an `Option`: first binding wins (Python dicts carry no
duplicate keys, so this is exact). -/
def dictGet? : List (String × Yaml) → String → Option Yaml
  | [], _ => none
  | (k', v) :: rest, k => if k' = k then some v else dictGet? rest k

/-- Python `d.get(k, default)`. -/
def dictGetD (kvs : List (String × Yaml)) (k : String) (default : Yaml) : Yaml :=
  (dictGet? kvs k).getD default

/-- Python `d[k] = v`: replace the first binding of `k` in place, or append
a new binding at the end (insertion order preserved). -/
def dictSet : List (String × Yaml) → String → Yaml → List (String × Yaml)
  | [], k, v => [(k, v)]
  | (k', v') :: rest, k, v =>
      if k' = k then (k, v) :: rest else (k', v') :: dictSet rest k v

/-- All items of a list pairwise distinct under `yamlBeq`
(jsonschema's `uniqueItems: true`). -/
def yamlNodup : List Yaml → Bool
  | [] => true
  | x :: xs => !(xs.any (yamlBeq x)) && yamlNodup xs

mutual
/-- Python `repr` of a parsed YAML value, used (via `pyStr`) only for the
f-string interpolation that builds the generator's `@id` field.  Quote
escaping inside strings is not reproduced; no theorem depends on this
string beyond it being a string. -/
def yamlRepr : Yaml → String
  | .null => "None"
  | .bool b => if b then "True" else "False"
  | .int n => toString n
  | .str s => "'" ++ s ++ "'"
  | .list xs => "[" ++ yamlReprList xs ++ "]"
  | .map kvs => "\x7b" ++ yamlReprMap kvs ++ "\x7d"

/-- Comma-separated `repr`s of list items. -/
def yamlReprList : List Yaml → String
  | [] => ""
  | [x] => yamlRepr x
  | x :: y :: rest => yamlRepr x ++ ", " ++ yamlReprList (y :: rest)

/-- Comma-separated `repr`s of mapping entries. -/
def yamlReprMap : List (String × Yaml) → String
  | [] => ""
  | [(k, v)] => "'" ++ k ++ "': " ++ yamlRepr v
  | (k, v) :: e :: rest => "'" ++ k ++ "': " ++ yamlRepr v ++ ", " ++ yamlReprMap (e :: rest)
end

/-- Python `str(v)` (what an f-string interpolation produces). -/
def pyStr : Yaml → String
  | .str s => s
  | v => yamlRepr v

/-- Python `iter(v)` as used by `for maintainer in metadata["maintainer"]`:
lists yield their items, dicts their keys, strings their characters (as
one-character strings); scalars raise `TypeError`. -/
def pyIter : Yaml → Except String (List Yaml)
  | .list xs => .ok xs
  | .map kvs => .ok (kvs.map (fun kv => .str kv.1))
  | .str s => .ok (s.toList.map (fun c => .str (String.singleton c)))
  | _ => .error "TypeError: object is not iterable"

/-! ### The two regular expressions of the module

Both are `^…$`-anchored, so `re.match`/`re.search`/jsonschema's `pattern`
all reduce to a full match.  (Python's `$` also matches before one trailing
newline and `.` excludes newlines; this refinement is immaterial to every
statement below and is not reproduced.) -/

/-- The character class `[a-zA-Z0-9_-]` (owner part of an identifier). -/
def ownerChar (c : Char) : Bool :=
  c.isAlpha || c.isDigit || c == '_' || c == '-'

/-- The character class `[a-zA-Z0-9_.-]` (repository part of an identifier). -/
def repoChar (c : Char) : Bool :=
  ownerChar c || c == '.'

/-- Full match of `^[a-zA-Z0-9_-]+/[a-zA-Z0-9_.-]+$`, the identifier
pattern used both by the schema and by the supplementary identifier check. -/
def identMatch (s : String) : Bool :=
  match s.toList.splitOn '/' with
  | [o, r] => !o.isEmpty && o.all ownerChar && !r.isEmpty && r.all repoChar
  | _ => false

/-- Match a literal template against the front of the input, returning the
unconsumed remainder.  With `dotAny = true` a `.` in the template matches
any character (an unescaped regex dot, as in the schema's host names);
with `dotAny = false` it matches only `.` (the supplementary check's
`github\.com` etc., and plain literal prefixes). -/
def matchChars (dotAny : Bool) : List Char → List Char → Option (List Char)
  | [], rest => some rest
  | _ :: _, [] => none
  | t :: ts, c :: cs =>
      if (t == '.' && dotAny) || c == t then matchChars dotAny ts cs else none

/-- Python `s.startswith(lit)` (and a literal regex prefix), by characters. -/
def strStartsWith (s lit : String) : Bool :=
  (matchChars false lit.toList s.toList).isSome

/-- Match of `(/[a-zA-Z0-9_-]+/[a-zA-Z0-9_.-]+|/record/[0-9]+)(/.*)?$`
against the text after the host. -/
def repoTailMatch : List Char → Bool
  | '/' :: rest =>
      match rest.splitOn '/' with
      | p0 :: p1 :: _ =>
          (!p0.isEmpty && p0.all ownerChar && !p1.isEmpty && p1.all repoChar) ||
          (p0 = "record".toList && !p1.isEmpty && p1.all Char.isDigit)
      | _ => false
  | _ => false

/-- The four allow-listed hosts, as they stand in both patterns. -/
def repoHosts : List String :=
  ["github.com", "gitlab.com", "bitbucket.org", "codeberg.com"]

/-- Full match of the repository-URL pattern
`^https://(github.com|gitlab.com|bitbucket.org|codeberg.com)(/[a-zA-Z0-9_-]+/[a-zA-Z0-9_.-]+|/record/[0-9]+)(/.*)?$`.
`dotAny` distinguishes the schema's unescaped host dots from the
supplementary check's escaped ones. -/
def repoUrlMatch (dotAny : Bool) (s : String) : Bool :=
  match matchChars false "https://".toList s.toList with
  | some rest =>
      repoHosts.any (fun host =>
        match matchChars dotAny host.toList rest with
        | some tail => repoTailMatch tail
        | none => false)
  | none => false

example : identMatch "owner/repo" = true := by decide
example : identMatch "invalid-identifier-format" = false := by decide
example : identMatch "a/b/c" = false := by decide
example : repoUrlMatch true "https://github.com/test/test-mcp" = true := by decide
example : repoUrlMatch false "https://github.com/test/test-mcp" = true := by decide
example : repoUrlMatch true "https://githubXcom/test/test-mcp" = true := by decide
example : repoUrlMatch false "https://githubXcom/test/test-mcp" = false := by decide
example : repoUrlMatch true "https://github.com" = false := by decide
example : repoUrlMatch true "https://gitlab.com/record/1234" = true := by decide
example : repoUrlMatch true "https://github.com/a/b/tree/main" = true := by decide

/-! ### The registry schema (`get_registry_schema`) and jsonschema validation

`jsonschema.validate` raises on the first violation; the module catches
the exception and records a single error, so at the value level only
validity matters: `schemaValid v = true` iff `validate(instance=v,
schema=get_registry_schema())` does not raise.  `format: "uri"` fields
carry no check (the module enables no format checker).  Each subschema of
a declared property is checked on the present keys; `required` lists and
`additionalProperties: false` are checked as written in the schema. -/

/-- The `applicationCategory` enum. -/
def appCategories : List String :=
  ["HealthApplication", "EducationApplication", "ReferenceApplication",
   "DeveloperApplication", "UtilitiesApplication"]

/-- The `operatingSystem` items enum. -/
def osEnum : List String :=
  ["Windows", "macOS", "Linux", "Unix", "Cross-platform"]

/-- The `programmingLanguage` items enum. -/
def langEnum : List String :=
  ["Python", "TypeScript", "JavaScript", "R", "Julia", "Java", "Go",
   "Rust", "C#", "C++", "Other"]

/-- The `softwareHelp` subschema: object, `required: ["@type", "url"]`,
`@type` const `CreativeWork`, `name` a 1–100 character string, `url` a
string, no additional properties. -/
def helpOk : Yaml → Bool
  | .map h =>
      (dictGet? h "@type").isSome && (dictGet? h "url").isSome &&
      h.all (fun kv =>
        match kv.1, kv.2 with
        | "@type", v => yamlBeq v (.str "CreativeWork")
        | "name", .str s => 1 ≤ s.length && s.length ≤ 100
        | "url", .str _ => true
        | _, _ => false)
  | _ => false

/-- The `maintainer` items subschema: object, `required: ["@type", "name"]`,
`@type` in `{Person, Organization}`, `name`/`identifier`/`url` strings, no
additional properties. -/
def maintainerEntryOk : Yaml → Bool
  | .map e =>
      (dictGet? e "@type").isSome && (dictGet? e "name").isSome &&
      e.all (fun kv =>
        match kv.1, kv.2 with
        | "@type", .str t => t == "Person" || t == "Organization"
        | "name", .str _ => true
        | "identifier", .str _ => true
        | "url", .str _ => true
        | _, _ => false)
  | _ => false

/-- Per-property subschema check of the registry schema; keys not among
the declared properties return `false` (`additionalProperties: false`). -/
def propOk : String → Yaml → Bool
  | "@context", v => yamlBeq v (.str "https://schema.org")
  | "@type", v => yamlBeq v (.str "SoftwareApplication")
  | "@id", .str _ => true
  | "identifier", .str s => identMatch s
  | "name", .str s => 1 ≤ s.length && s.length ≤ 100
  | "description", .str s => 10 ≤ s.length && s.length ≤ 1000
  | "codeRepository", .str s => repoUrlMatch true s
  | "url", .str _ => true
  | "softwareHelp", v => helpOk v
  | "maintainer", .list xs => xs.all maintainerEntryOk
  | "license", .str _ => true
  | "keywords", .list xs =>
      1 ≤ xs.length && xs.length ≤ 10 &&
      xs.all (fun k => match k with
        | .str s => 2 ≤ s.length && s.length ≤ 30
        | _ => false) &&
      yamlNodup xs
  | "applicationCategory", .str s => appCategories.contains s
  | "operatingSystem", .list xs =>
      xs.all (fun x => match x with
        | .str s => osEnum.contains s
        | _ => false) &&
      yamlNodup xs
  | "programmingLanguage", .list xs =>
      xs.all (fun x => match x with
        | .str s => langEnum.contains s
        | _ => false) &&
      yamlNodup xs
  | "featureList", .list xs =>
      xs.all (fun x => match x with
        | .str _ => true
        | _ => false) &&
      yamlNodup xs
  | "user_confirmed", .bool _ => true
  | _, _ => false

/-- The schema's top-level `required` list. -/
def requiredKeys : List String :=
  ["@context", "@type", "@id", "identifier", "name", "description",
   "codeRepository", "maintainer", "license", "applicationCategory",
   "keywords", "programmingLanguage"]

/-- `jsonschema.validate(instance=v, schema=get_registry_schema())`
raises no error: the instance is an object, every required key is
present, and every present key is declared and satisfies its subschema. -/
def schemaValid : Yaml → Bool
  | .map kvs =>
      requiredKeys.all (fun k => (dictGet? kvs k).isSome) &&
      kvs.all (fun kv => propOk kv.1 kv.2)
  | _ => false

/-! ### `validate_yaml_specification` -/

/-- The validation-result dict built by `validate_yaml_specification`. -/
structure VResult where
  valid : Bool
  errors : List String
  warnings : List String
  suggestions : List String
deriving Repr, DecidableEq

/-- Stand-in for `f"Schema validation error: {e.message}"` (and the
optional path line): the text comes from the jsonschema library and is
abstracted to a fixed string. -/
def schemaErrorMsg : String := "Schema validation error"

/-- Stand-in for `f"YAML parsing error: {e}"`. -/
def parseErrorMsg : String := "YAML parsing error"

/-- Stand-in for `f"Unexpected error: {e}"` (the catch-all branch). -/
def unexpectedErrorMsg : String := "Unexpected error"

/-- The empty/falsy-input error. -/
def emptyErrorMsg : String := "YAML content is empty or invalid"

/-- The SPDX license warning. -/
def licenseWarningMsg : String :=
  "License should use SPDX format (https://spdx.org/licenses/...)"

/-- The supplementary identifier error. -/
def identifierErrorMsg : String :=
  "Identifier must be in format 'owner/repository'"

/-- The repository-host warning. -/
def repoWarningMsg : String :=
  "Repository URL should be from a supported platform (GitHub, GitLab, Bitbucket, Codeberg)"

/-- The missing-`url` suggestion. -/
def urlSuggestionMsg : String :=
  "Consider adding a 'url' field if your MCP server is remotely hosted"

/-- The missing-`softwareHelp` suggestion. -/
def helpSuggestionMsg : String :=
  "Consider adding 'softwareHelp' with documentation URL"

/-- The missing-`featureList` suggestion. -/
def featureSuggestionMsg : String :=
  "Consider adding 'featureList' to describe your MCP server's capabilities"

/-- Supplementary license check: `if "license" in yaml_data:` then
`.startswith` on the value.  A non-string value would raise (Python
`AttributeError`, caught as the generic unexpected error, `Except.error`
here aborting the remaining checks with the mutations so far kept); that
branch is unreachable after `schemaValid`. -/
def stepLicense (kvs : List (String × Yaml)) (r : VResult) : Except VResult VResult :=
  match dictGet? kvs "license" with
  | none => .ok r
  | some (.str s) =>
      if strStartsWith s "https://spdx.org/licenses/" then .ok r
      else .ok { r with warnings := r.warnings ++ [licenseWarningMsg] }
  | some _ => .error { r with valid := false, errors := r.errors ++ [unexpectedErrorMsg] }

/-- Supplementary identifier check (`re.match` on the same pattern the
schema already enforced). -/
def stepIdentifier (kvs : List (String × Yaml)) (r : VResult) : Except VResult VResult :=
  match dictGet? kvs "identifier" with
  | none => .ok r
  | some (.str s) =>
      if identMatch s then .ok r
      else .ok { r with valid := false, errors := r.errors ++ [identifierErrorMsg] }
  | some _ => .error { r with valid := false, errors := r.errors ++ [unexpectedErrorMsg] }

/-- Supplementary repository-host check (escaped-dot pattern). -/
def stepRepo (kvs : List (String × Yaml)) (r : VResult) : Except VResult VResult :=
  match dictGet? kvs "codeRepository" with
  | none => .ok r
  | some (.str s) =>
      if repoUrlMatch false s then .ok r
      else .ok { r with warnings := r.warnings ++ [repoWarningMsg] }
  | some _ => .error { r with valid := false, errors := r.errors ++ [unexpectedErrorMsg] }

/-- The three improvement suggestions in source order, each gated on
Python truthiness of `yaml_data.get(field)` (`None` when absent). -/
def suggList (kvs : List (String × Yaml)) : List String :=
  (if (dictGetD kvs "url" .null).falsy then [urlSuggestionMsg] else []) ++
  (if (dictGetD kvs "softwareHelp" .null).falsy then [helpSuggestionMsg] else []) ++
  (if (dictGetD kvs "featureList" .null).falsy then [featureSuggestionMsg] else [])

/-- Append the applicable suggestions (the three sequential appends of the
source, written as one). -/
def stepSuggest (kvs : List (String × Yaml)) (r : VResult) : VResult :=
  { r with suggestions := r.suggestions ++ suggList kvs }

/-- Runs the supplementary checks after a successful schema validation,
with exception flow collapsing to the accumulated result. -/
def supplementary (kvs : List (String × Yaml)) : VResult :=
  match (do
      let r ← stepLicense kvs ⟨true, [], [], []⟩
      let r ← stepIdentifier kvs r
      let r ← stepRepo kvs r
      pure (stepSuggest kvs r) : Except VResult VResult) with
  | .ok r => r
  | .error r => r

/-- `validate_yaml_specification` after `yaml.safe_load` succeeded: the
falsy check, then `jsonschema.validate` (failure records one error and,
by raising, skips every supplementary check), then the supplementary
checks. -/
def validateParsed (v : Yaml) : VResult :=
  if v.falsy then ⟨false, [emptyErrorMsg], [], []⟩
  else if schemaValid v then
    match v with
    | .map kvs => supplementary kvs
    | _ => ⟨false, [schemaErrorMsg], [], []⟩
  else ⟨false, [schemaErrorMsg], [], []⟩

/-- `validate_yaml_specification(yaml_content)`: `none` models text on
which `yaml.safe_load` raises a `yaml.YAMLError`. -/
def validate_yaml_specification : Option Yaml → VResult
  | none => ⟨false, [parseErrorMsg], [], []⟩
  | some v => validateParsed v

/-- A complete valid document (the shape of the test suite's
`valid_yaml`), reused as concrete input by several witnesses. -/
def sampleDoc : List (String × Yaml) :=
  [("@context", .str "https://schema.org"),
   ("@type", .str "SoftwareApplication"),
   ("@id", .str "https://github.com/test/test-mcp"),
   ("identifier", .str "test/test-mcp"),
   ("name", .str "Test MCP"),
   ("description", .str "A test MCP server for validation"),
   ("codeRepository", .str "https://github.com/test/test-mcp"),
   ("maintainer", .list [.map [("@type", .str "Person"), ("name", .str "Test User")]]),
   ("license", .str "https://spdx.org/licenses/MIT.html"),
   ("applicationCategory", .str "HealthApplication"),
   ("keywords", .list [.str "test", .str "mcp"]),
   ("programmingLanguage", .list [.str "Python"]),
   ("user_confirmed", .bool false)]

example : schemaValid (.map sampleDoc) = true := by decide
example : validate_yaml_specification (some (.map sampleDoc)) =
    ⟨true, [], [], [urlSuggestionMsg, helpSuggestionMsg, featureSuggestionMsg]⟩ := by decide
example : validate_yaml_specification (some (.map (dictSet sampleDoc "license" (.str "MIT")))) =
    ⟨true, [], [licenseWarningMsg], [urlSuggestionMsg, helpSuggestionMsg, featureSuggestionMsg]⟩ := by
  decide
example : validate_yaml_specification (some (.map [("license", .str "MIT")])) =
    ⟨false, [schemaErrorMsg], [], []⟩ := by decide

/-! ### `generate_yaml_template`

The generator takes the metadata dict and assembles the document key by
key.  Python exceptions it can raise (`KeyError` on a maintainer entry
without `"name"` or a `softwareHelp` without `"url"`, `TypeError` /
`AttributeError` on wrongly-typed `softwareHelp` or maintainer values)
are `Except.error` with abstracted messages.  The returned value is the
parsed form of the dumped YAML string. -/

/-- The `softwareHelp` block: `{"@type": "CreativeWork", "url":
metadata["softwareHelp"]["url"], "name": …get("name", "Documentation")}`,
in that key order. -/
def genHelpSeg (metadata : List (String × Yaml)) :
    Except String (List (String × Yaml)) :=
  match dictGet? metadata "softwareHelp" with
  | none => .ok []
  | some (.map h) =>
      match dictGet? h "url" with
      | some u =>
          .ok [("softwareHelp", .map
            [("@type", .str "CreativeWork"), ("url", u),
             ("name", dictGetD h "name" (.str "Documentation"))])]
      | none => .error "KeyError: 'url'"
  | some _ => .error "TypeError: value is not subscriptable by string"

/-- One normalized maintainer entry: `@type` (defaulted to `"Person"`) and
`name` always, `identifier` and `url` copied only if present.  A
non-mapping entry raises (`AttributeError`), a mapping without `"name"`
raises `KeyError`. -/
def genMaintainerEntry : Yaml → Except String Yaml
  | .map e =>
      match dictGet? e "name" with
      | some n =>
          .ok (.map ([("@type", dictGetD e "@type" (.str "Person")), ("name", n)] ++
            (match dictGet? e "identifier" with
             | some i => [("identifier", i)]
             | none => []) ++
            (match dictGet? e "url" with
             | some u => [("url", u)]
             | none => [])))
      | none => .error "KeyError: 'name'"
  | _ => .error "AttributeError: entry has no attribute get"

/-- The maintainer entries in input order, first exception wins. -/
def genMaintainerEntries : List Yaml → Except String (List Yaml)
  | [] => .ok []
  | e :: rest => do
      let e' ← genMaintainerEntry e
      let rest' ← genMaintainerEntries rest
      pure (e' :: rest')

/-- The `maintainer` block of the generated document. -/
def genMaintSeg (metadata : List (String × Yaml)) :
    Except String (List (String × Yaml)) :=
  match dictGet? metadata "maintainer" with
  | none => .ok []
  | some mv => do
      let entries ← pyIter mv
      let ms ← genMaintainerEntries entries
      pure [("maintainer", .list ms)]

/-- Copy `key` from the metadata if present (`if key in metadata:`). -/
def genCopySeg (metadata : List (String × Yaml)) (key : String) :
    List (String × Yaml) :=
  match dictGet? metadata key with
  | some v => [(key, v)]
  | none => []

/-- The `@id`/`identifier` block: `@id` is the f-string
`f"https://github.com/{metadata['identifier']}"`. -/
def genIdentSeg (metadata : List (String × Yaml)) : List (String × Yaml) :=
  match dictGet? metadata "identifier" with
  | some v => [("@id", .str ("https://github.com/" ++ pyStr v)), ("identifier", v)]
  | none => []

/-- `generate_yaml_template(metadata)`: the canonical document in the
fixed key order of the source, with `applicationCategory`,
`operatingSystem` and `user_confirmed` always injected (defaults
`"HealthApplication"`, `["Cross-platform"]`, `False`). -/
def generate_yaml_template (metadata : List (String × Yaml)) : Except String Yaml := do
  let help ← genHelpSeg metadata
  let maint ← genMaintSeg metadata
  pure (.map (
    [("@context", .str "https://schema.org"),
     ("@type", .str "SoftwareApplication")] ++
    genIdentSeg metadata ++
    genCopySeg metadata "name" ++
    genCopySeg metadata "description" ++
    genCopySeg metadata "codeRepository" ++
    genCopySeg metadata "url" ++
    help ++
    maint ++
    genCopySeg metadata "license" ++
    [("applicationCategory", dictGetD metadata "applicationCategory" (.str "HealthApplication"))] ++
    genCopySeg metadata "keywords" ++
    [("operatingSystem", dictGetD metadata "operatingSystem" (.list [.str "Cross-platform"]))] ++
    genCopySeg metadata "programmingLanguage" ++
    genCopySeg metadata "featureList" ++
    [("user_confirmed", dictGetD metadata "user_confirmed" (.bool false))]))

/-! ### The tool layer: effects and the submission workflow -/

/-- The observable side effects of a tool call, in order. -/
inductive Effect where
  | writeFile (path : String) (content : Yaml) : Effect
  | httpPost (endpoint : String) (body : Yaml) : Effect
deriving Repr

/-- The outcome of the one `requests.post` attempt, injected as an input:
either a response (status, body under `response.json()` — `none` when the
body is not parseable JSON — and raw text) or a raised
`requests.exceptions.RequestException`. -/
inductive HttpOutcome where
  | response (status : Nat) (jsonBody : Option Yaml) (text : String) : HttpOutcome
  | netError (msg : String) : HttpOutcome
deriving Repr

/-- The result dict of `submit_to_registry` (also returned by
`confirm_and_submit_to_registry_tool`, whose own failure dicts carry no
`submission_id` key — modelled as `none`).  `errors` holds Python values:
the failure branch appends `error_data.get("message", "Unknown error")`,
which need not be a string. -/
structure SubmissionResult where
  success : Bool
  message : String
  submission_id : Option Yaml
  errors : List Yaml
deriving Repr

/-- `submit_to_registry(yaml_content, api_endpoint)`: re-validate, then a
single POST of the parsed document.  The `none` content branch after a
passed validation is unreachable (validation rejects unparseable text)
and returns the validation-failure dict. -/
def submit_to_registry (content : Option Yaml) (apiEndpoint : String)
    (net : HttpOutcome) : SubmissionResult × List Effect :=
  let vr := validate_yaml_specification content
  if !vr.valid then
    ({ success := false, message := "Validation failed before submission",
       submission_id := none, errors := vr.errors.map Yaml.str }, [])
  else
    match content with
    | none =>
        ({ success := false, message := "Validation failed before submission",
           submission_id := none, errors := [] }, [])
    | some v =>
        match net with
        | .response status jsonBody text =>
            if status == 200 || status == 201 then
              ({ success := true, message := "Successfully submitted to registry",
                 submission_id := (match jsonBody with
                   | some (.map m) => dictGet? m "id"
                   | _ => none),
                 errors := [] }, [.httpPost apiEndpoint v])
            else
              ({ success := false,
                 message := "API request failed with status " ++ toString status,
                 submission_id := none,
                 errors := [match jsonBody with
                   | some (.map m) => dictGetD m "message" (.str "Unknown error")
                   | _ => .str text] }, [.httpPost apiEndpoint v])
        | .netError msg =>
            ({ success := false, message := "Failed to connect to registry API",
               submission_id := none,
               errors := [.str ("Network error: " ++ msg)] }, [.httpPost apiEndpoint v])

/-- The result dict of `submit_to_registry_tool`.  The presentation-only
`submission_preview` and `confirmation_message` fields (fixed text around
the same identifier/name/repository/endpoint values) are omitted; no
claim mentions them. -/
structure PrepareResult where
  success : Bool
  message : String
  validation_result : VResult
  requires_confirmation : Bool
  yaml_file : Option String
deriving Repr, DecidableEq

/-- `submit_to_registry_tool(yaml_content, api_endpoint, project_path)`:
validate; on failure return at once and write nothing.  Otherwise force
`user_confirmed = False` and write `meta.yaml` under the project path
(`os.path.abspath` is modelled as the identity on the given path; the
file-write happy path is assumed, OS-level write failures being outside
the model).  The non-mapping branch after a passed validation is
unreachable (`schemaValid` forces a mapping) and returns the
parse-failure dict of the source. -/
def submit_to_registry_tool (content : Option Yaml) (_apiEndpoint : String)
    (projectPath : String) : PrepareResult × List Effect :=
  let vr := validate_yaml_specification content
  if !vr.valid then
    ({ success := false, message := "Validation failed - cannot submit invalid YAML",
       validation_result := vr, requires_confirmation := false,
       yaml_file := none }, [])
  else
    match content with
    | some (.map kvs) =>
        let kvs' := dictSet kvs "user_confirmed" (.bool false)
        let filepath := projectPath ++ "/meta.yaml"
        ({ success := true,
           message := "YAML file created successfully. User confirmation required before submission.",
           validation_result := vr, requires_confirmation := true,
           yaml_file := some filepath }, [.writeFile filepath (.map kvs')])
    | _ =>
        ({ success := false, message := "Failed to parse YAML",
           validation_result := vr, requires_confirmation := false,
           yaml_file := none }, [])

/-- `confirm_and_submit_to_registry_tool(yaml_file_path, api_endpoint)`.
`file` is what reading the path yields: `none` = `FileNotFoundError`,
`some v` = the `yaml.safe_load` of the file's text.  A non-mapping value
makes `yaml_data.get` raise, caught by the generic handler (abstracted
message).  On an unconfirmed mapping the flag is set to `True`, the file
is rewritten, and the re-serialized document is handed to
`submit_to_registry`. -/
def confirm_and_submit_to_registry_tool (yamlFilePath : String)
    (file : Option Yaml) (apiEndpoint : String) (net : HttpOutcome) :
    SubmissionResult × List Effect :=
  match file with
  | none =>
      ({ success := false, message := "YAML file not found: " ++ yamlFilePath,
         submission_id := none,
         errors := [.str ("File not found: " ++ yamlFilePath)] }, [])
  | some (.map kvs) =>
      if !(dictGetD kvs "user_confirmed" (.bool false)).falsy then
        ({ success := false,
           message := "YAML file already has user_confirmed: true. Submission may have already been attempted.",
           submission_id := none,
           errors := [.str "File already confirmed for submission"] }, [])
      else
        let kvs' := dictSet kvs "user_confirmed" (.bool true)
        let pr := submit_to_registry (some (.map kvs')) apiEndpoint net
        (pr.1, .writeFile yamlFilePath (.map kvs') :: pr.2)
  | some _ =>
      ({ success := false, message := "Failed to process YAML file",
         submission_id := none, errors := [.str "exception"] }, [])

/-- The result dict of `check_yaml_file_status_tool`; fields set only on
the success path are `Option`s (`none` = key absent from the dict).
`ready_for_submission` is Python's `user_confirmed and
validation_result["valid"]`, whose value is the stored flag itself when
that flag is falsy. -/
structure StatusResult where
  success : Bool
  message : String
  file_exists : Bool
  file_path : Option String
  identifier : Option Yaml
  name : Option Yaml
  user_confirmed : Option Yaml
  validation_result : Option VResult
  ready_for_submission : Option Yaml
deriving Repr

/-- `check_yaml_file_status_tool(yaml_file_path)`.  `file` is the read
outcome: `none` = the path does not exist; `some none` = it exists but
`yaml.safe_load` raises (caught by the generic handler); `some (some v)`
= it exists and parses to `v`.  A non-mapping `v` makes `yaml_data.get`
raise `AttributeError`, also caught by the generic handler, which reports
`file_exists: False`. -/
def check_yaml_file_status_tool (yamlFilePath : String)
    (file : Option (Option Yaml)) : StatusResult :=
  match file with
  | none =>
      { success := false, message := "YAML file not found: " ++ yamlFilePath,
        file_exists := false, file_path := none, identifier := none,
        name := none, user_confirmed := none, validation_result := none,
        ready_for_submission := none }
  | some none =>
      { success := false, message := "Failed to read YAML file",
        file_exists := false, file_path := none, identifier := none,
        name := none, user_confirmed := none, validation_result := none,
        ready_for_submission := none }
  | some (some (.map kvs)) =>
      let identifier := dictGetD kvs "identifier" (.str "Unknown")
      let name := dictGetD kvs "name" (.str "Unknown")
      let uc := dictGetD kvs "user_confirmed" (.bool false)
      let vr := validate_yaml_specification (some (.map kvs))
      { success := true, message := "YAML file status retrieved successfully",
        file_exists := true, file_path := some yamlFilePath,
        identifier := some identifier, name := some name,
        user_confirmed := some uc, validation_result := some vr,
        ready_for_submission := some (if uc.falsy then uc else .bool vr.valid) }
  | some (some _) =>
      { success := false, message := "Failed to read YAML file",
        file_exists := false, file_path := none, identifier := none,
        name := none, user_confirmed := none, validation_result := none,
        ready_for_submission := none }

/-! ### Basic lemmas about the dictionary model -/

/-- A successful lookup names an entry of the dict. -/
theorem dictGet?_mem {kvs : List (String × Yaml)} {k : String} {v : Yaml}
    (h : dictGet? kvs k = some v) : (k, v) ∈ kvs := by
  induction kvs with
  | nil => simp [dictGet?] at h
  | cons hd tl ih =>
      obtain ⟨k', v'⟩ := hd
      by_cases hk : k' = k
      · subst hk
        simp [dictGet?] at h
        simp [h]
      · simp [dictGet?, hk] at h
        exact List.mem_cons_of_mem _ (ih h)

/-- An entry of the dict makes the lookup succeed. -/
theorem dictGet?_isSome_of_mem {kvs : List (String × Yaml)} {k : String} {v : Yaml}
    (h : (k, v) ∈ kvs) : (dictGet? kvs k).isSome := by
  induction kvs with
  | nil => simp at h
  | cons hd tl ih =>
      obtain ⟨k', v'⟩ := hd
      by_cases hk : k' = k
      · simp [dictGet?, hk]
      · rcases List.mem_cons.mp h with heq | hmem
        · exact absurd (congrArg Prod.fst heq).symm hk
        · simpa [dictGet?, hk] using ih hmem

/-- Looking up the key just set returns the value just set. -/
theorem dictGet?_dictSet_self (kvs : List (String × Yaml)) (k : String) (v : Yaml) :
    dictGet? (dictSet kvs k v) k = some v := by
  induction kvs with
  | nil => simp [dictSet, dictGet?]
  | cons hd tl ih =>
      obtain ⟨k', v'⟩ := hd
      by_cases hk : k' = k
      · simp [dictSet, hk, dictGet?]
      · simp [dictSet, hk, dictGet?, ih]

/-! ### Lemmas about `schemaValid` -/

/-- Every value looked up in a schema-valid document satisfies its
property subschema. -/
theorem schemaValid_prop {kvs : List (String × Yaml)} {k : String} {v : Yaml}
    (h : schemaValid (.map kvs) = true) (hk : dictGet? kvs k = some v) :
    propOk k v = true := by
  unfold schemaValid at h
  rw [Bool.and_eq_true] at h
  have := List.all_eq_true.mp h.2 (k, v) (dictGet?_mem hk)
  simpa using this

/-- Every required key of a schema-valid document is present. -/
theorem schemaValid_required {kvs : List (String × Yaml)} {k : String}
    (h : schemaValid (.map kvs) = true) (hk : k ∈ requiredKeys) :
    (dictGet? kvs k).isSome := by
  unfold schemaValid at h
  rw [Bool.and_eq_true] at h
  simpa using List.all_eq_true.mp h.1 k hk

/-- A schema-valid document is a non-empty mapping, hence truthy. -/
theorem schemaValid_not_falsy {kvs : List (String × Yaml)}
    (h : schemaValid (.map kvs) = true) : (Yaml.map kvs).falsy = false := by
  have hctx : (dictGet? kvs "@context").isSome :=
    schemaValid_required h (by simp [requiredKeys])
  cases kvs with
  | nil => simp [dictGet?] at hctx
  | cons hd tl => simp [Yaml.falsy]

/-! ### The validator on schema-valid documents -/

/-- The license warning the supplementary license check would append. -/
def licenseWarnList (kvs : List (String × Yaml)) : List String :=
  match dictGet? kvs "license" with
  | some (.str s) =>
      if strStartsWith s "https://spdx.org/licenses/" then [] else [licenseWarningMsg]
  | _ => []

/-- The repository-host warning the supplementary repository check would
append. -/
def repoWarnList (kvs : List (String × Yaml)) : List String :=
  match dictGet? kvs "codeRepository" with
  | some (.str s) =>
      if repoUrlMatch false s then [] else [repoWarningMsg]
  | _ => []

/-- A value passing the `identifier` subschema is a string matching the
identifier pattern. -/
theorem propOk_str_identifier {v : Yaml} (h : propOk "identifier" v = true) :
    ∃ s, v = Yaml.str s ∧ identMatch s = true := by
  cases v with
  | str s => exact ⟨s, rfl, h⟩
  | null => exact (Bool.false_ne_true h).elim
  | bool b => exact (Bool.false_ne_true h).elim
  | int n => exact (Bool.false_ne_true h).elim
  | list xs => exact (Bool.false_ne_true h).elim
  | map kvs => exact (Bool.false_ne_true h).elim

/-- A value passing the `license` subschema is a string. -/
theorem propOk_str_license {v : Yaml} (h : propOk "license" v = true) :
    ∃ s, v = Yaml.str s := by
  cases v with
  | str s => exact ⟨s, rfl⟩
  | null => exact (Bool.false_ne_true h).elim
  | bool b => exact (Bool.false_ne_true h).elim
  | int n => exact (Bool.false_ne_true h).elim
  | list xs => exact (Bool.false_ne_true h).elim
  | map kvs => exact (Bool.false_ne_true h).elim

/-- A value passing the `codeRepository` subschema is a string. -/
theorem propOk_str_codeRepository {v : Yaml} (h : propOk "codeRepository" v = true) :
    ∃ s, v = Yaml.str s := by
  cases v with
  | str s => exact ⟨s, rfl⟩
  | null => exact (Bool.false_ne_true h).elim
  | bool b => exact (Bool.false_ne_true h).elim
  | int n => exact (Bool.false_ne_true h).elim
  | list xs => exact (Bool.false_ne_true h).elim
  | map kvs => exact (Bool.false_ne_true h).elim

/-- On a schema-valid document the supplementary pass leaves the result
valid with no errors: the license value is a string (so the license check
only warns), the identifier is a string matching the very pattern the
schema enforced (so the stronger identifier check never fires), and the
repository check only warns. -/
theorem supplementary_eq {kvs : List (String × Yaml)}
    (h : schemaValid (.map kvs) = true) :
    supplementary kvs =
      ⟨true, [], licenseWarnList kvs ++ repoWarnList kvs, suggList kvs⟩ := by
  -- the identifier is present, a string, and matches the pattern
  obtain ⟨vi, hvi⟩ := Option.isSome_iff_exists.mp
    (schemaValid_required h (by simp [requiredKeys]) : (dictGet? kvs "identifier").isSome)
  obtain ⟨si, rfl, hident⟩ := propOk_str_identifier (schemaValid_prop h hvi)
  -- the license, if present, is a string
  have hlic : ∀ v, dictGet? kvs "license" = some v → ∃ s, v = Yaml.str s :=
    fun _ hv => propOk_str_license (schemaValid_prop h hv)
  -- the repository, if present, is a string
  have hrepo : ∀ v, dictGet? kvs "codeRepository" = some v → ∃ s, v = Yaml.str s :=
    fun _ hv => propOk_str_codeRepository (schemaValid_prop h hv)
  unfold supplementary licenseWarnList repoWarnList
  cases hl : dictGet? kvs "license" with
  | none =>
      cases hr : dictGet? kvs "codeRepository" with
      | none =>
          simp [stepLicense, stepIdentifier, stepRepo, stepSuggest, hl, hr, hvi, hident,
            Except.bind, Bind.bind, pure, Except.pure]
      | some vr =>
          obtain ⟨sr, rfl⟩ := hrepo vr hr
          cases hrm : repoUrlMatch false sr <;>
            simp [stepLicense, stepIdentifier, stepRepo, stepSuggest, hl, hr, hvi, hident,
              hrm, Except.bind, Bind.bind, pure, Except.pure]
  | some vl =>
      obtain ⟨sl, rfl⟩ := hlic vl hl
      cases hsw : strStartsWith sl "https://spdx.org/licenses/" with
      | false =>
          cases hr : dictGet? kvs "codeRepository" with
          | none =>
              simp [stepLicense, stepIdentifier, stepRepo, stepSuggest, hl, hr, hvi, hident,
                hsw, Except.bind, Bind.bind, pure, Except.pure]
          | some vr =>
              obtain ⟨sr, rfl⟩ := hrepo vr hr
              cases hrm : repoUrlMatch false sr <;>
                simp [stepLicense, stepIdentifier, stepRepo, stepSuggest, hl, hr, hvi, hident,
                  hsw, hrm, Except.bind, Bind.bind, pure, Except.pure]
      | true =>
          cases hr : dictGet? kvs "codeRepository" with
          | none =>
              simp [stepLicense, stepIdentifier, stepRepo, stepSuggest, hl, hr, hvi, hident,
                hsw, Except.bind, Bind.bind, pure, Except.pure]
          | some vr =>
              obtain ⟨sr, rfl⟩ := hrepo vr hr
              cases hrm : repoUrlMatch false sr <;>
                simp [stepLicense, stepIdentifier, stepRepo, stepSuggest, hl, hr, hvi, hident,
                  hsw, hrm, Except.bind, Bind.bind, pure, Except.pure]

/-- On a schema-valid document `validate_yaml_specification` runs the
supplementary pass. -/
theorem validate_eq_of_schemaValid {kvs : List (String × Yaml)}
    (h : schemaValid (.map kvs) = true) :
    validate_yaml_specification (some (.map kvs)) =
      ⟨true, [], licenseWarnList kvs ++ repoWarnList kvs, suggList kvs⟩ := by
  have hf := schemaValid_not_falsy h
  rw [validate_yaml_specification, validateParsed, hf]
  simp [h, supplementary_eq h]

/-! ### Lemmas about the submitter and the confirmation gate -/

/-- An invalid document makes `submit_to_registry` fail before any
network activity: the result carries the validation errors and the effect
trace is empty. -/
theorem submit_invalid_eq (content : Option Yaml) (ep : String) (net : HttpOutcome)
    (h : (validate_yaml_specification content).valid = false) :
    submit_to_registry content ep net =
      ({ success := false, message := "Validation failed before submission",
         submission_id := none,
         errors := (validate_yaml_specification content).errors.map Yaml.str }, []) := by
  unfold submit_to_registry
  simp [h]

/-- A valid document makes `submit_to_registry` issue exactly one POST of
the parsed document to the endpoint, whatever the network outcome. -/
theorem submit_valid_trace (content : Option Yaml) (ep : String) (net : HttpOutcome)
    (h : (validate_yaml_specification content).valid = true) :
    ∃ v, content = some v ∧
      (submit_to_registry content ep net).2 = [.httpPost ep v] := by
  cases content with
  | none => simp [validate_yaml_specification] at h
  | some v =>
      refine ⟨v, rfl, ?_⟩
      unfold submit_to_registry
      simp only [h, Bool.not_true, Bool.false_eq_true, if_false]
      cases net with
      | response status body text =>
          by_cases hs : (status == 200 || status == 201) = true <;> simp [hs]
      | netError msg => simp

/-- A truthy stored confirmation flag makes `confirm_and_submit` refuse
at once: no write, no network call. -/
theorem confirm_refuses_confirmed (path : String) (kvs : List (String × Yaml))
    (ep : String) (net : HttpOutcome)
    (h : (dictGetD kvs "user_confirmed" (.bool false)).falsy = false) :
    confirm_and_submit_to_registry_tool path (some (.map kvs)) ep net =
      ({ success := false,
         message := "YAML file already has user_confirmed: true. Submission may have already been attempted.",
         submission_id := none,
         errors := [.str "File already confirmed for submission"] }, []) := by
  unfold confirm_and_submit_to_registry_tool
  simp [h]

/-! ### Well-formed metadata (the hypothesis of the generate/validate
round-trip)

"Complete, well-formed" metadata: every required document field is
present in the mapping with a value satisfying its subschema, and every
optional field that is present satisfies its subschema.  For
`softwareHelp` and `maintainer` — the two inputs the generator reshapes
rather than copies — the condition is stated on the input shape the
generator consumes. -/

/-- An optional copied field: absent, or present satisfying its
subschema. -/
def wfOpt (m : List (String × Yaml)) (k : String) : Bool :=
  match dictGet? m k with
  | some v => propOk k v
  | none => true

/-- A required copied field: present and satisfying its subschema. -/
def wfReq (m : List (String × Yaml)) (k : String) : Bool :=
  match dictGet? m k with
  | some v => propOk k v
  | none => false

/-- Well-formed `softwareHelp` input: absent, or a mapping with a string
`url` and (if present) a 1–100 character string `name`. -/
def wfHelpMeta (m : List (String × Yaml)) : Bool :=
  match dictGet? m "softwareHelp" with
  | none => true
  | some (.map h) =>
      (match dictGet? h "url" with
       | some (.str _) => true
       | _ => false) &&
      (match dictGet? h "name" with
       | none => true
       | some (.str s) => 1 ≤ s.length && s.length ≤ 100
       | some _ => false)
  | some _ => false

/-- Well-formed maintainer input entry: a mapping with a string `name`,
an (optional) `@type` in the enum, and optional string `identifier` and
`url`. -/
def wfMaintEntry : Yaml → Bool
  | .map em =>
      (match dictGet? em "name" with
       | some (.str _) => true
       | _ => false) &&
      (match dictGet? em "@type" with
       | none => true
       | some (.str t) => t == "Person" || t == "Organization"
       | some _ => false) &&
      (match dictGet? em "identifier" with
       | none => true
       | some (.str _) => true
       | some _ => false) &&
      (match dictGet? em "url" with
       | none => true
       | some (.str _) => true
       | some _ => false)
  | _ => false

/-- Well-formed `maintainer` input: present as a list of well-formed
entries. -/
def wfMaintainerMeta (m : List (String × Yaml)) : Bool :=
  match dictGet? m "maintainer" with
  | some (.list es) => es.all wfMaintEntry
  | _ => false

/-- A complete, well-formed metadata mapping: all required fields present
with in-constraint values, optional fields in constraint when present. -/
def wellFormedMetadata (m : List (String × Yaml)) : Bool :=
  wfReq m "identifier" && wfReq m "name" && wfReq m "description" &&
  wfReq m "codeRepository" && wfOpt m "url" && wfHelpMeta m &&
  wfMaintainerMeta m && wfReq m "license" && wfOpt m "applicationCategory" &&
  wfReq m "keywords" && wfOpt m "operatingSystem" &&
  wfReq m "programmingLanguage" && wfOpt m "featureList" &&
  wfOpt m "user_confirmed"

theorem wfReq_spec {m : List (String × Yaml)} {k : String} (h : wfReq m k = true) :
    ∃ v, dictGet? m k = some v ∧ propOk k v = true := by
  unfold wfReq at h
  cases hv : dictGet? m k with
  | none => rw [hv] at h; exact absurd h (by simp)
  | some v => rw [hv] at h; exact ⟨v, rfl, h⟩

theorem wfOpt_spec {m : List (String × Yaml)} {k : String} (h : wfOpt m k = true) :
    ∀ v, dictGet? m k = some v → propOk k v = true := by
  intro v hv
  unfold wfOpt at h
  rw [hv] at h
  exact h

/-- A copied segment under a present key. -/
theorem genCopySeg_some {m : List (String × Yaml)} {k : String} {v : Yaml}
    (h : dictGet? m k = some v) : genCopySeg m k = [(k, v)] := by
  unfold genCopySeg
  rw [h]

/-- A copied segment under an absent key. -/
theorem genCopySeg_none {m : List (String × Yaml)} {k : String}
    (h : dictGet? m k = none) : genCopySeg m k = [] := by
  unfold genCopySeg
  rw [h]

/-- Every pair of a copied segment satisfies its subschema. -/
theorem genCopySeg_all {m : List (String × Yaml)} {k : String}
    (h : ∀ v, dictGet? m k = some v → propOk k v = true) :
    (genCopySeg m k).all (fun kv => propOk kv.1 kv.2) = true := by
  unfold genCopySeg
  cases hv : dictGet? m k with
  | none => rfl
  | some v => simp [h v hv]

/-- A defaulted always-injected value satisfies its subschema when the
default does and any provided value does. -/
theorem propOk_dictGetD {m : List (String × Yaml)} {k : String} {d : Yaml}
    (hopt : wfOpt m k = true) (hd : propOk k d = true) :
    propOk k (dictGetD m k d) = true := by
  unfold dictGetD
  cases hv : dictGet? m k with
  | none => simpa using hd
  | some v => simpa using wfOpt_spec hopt v hv

/-- Under well-formed `softwareHelp` input the help segment is produced
and satisfies the `softwareHelp` subschema. -/
theorem genHelpSeg_ok {m : List (String × Yaml)} (h : wfHelpMeta m = true) :
    ∃ hs, genHelpSeg m = .ok hs ∧ hs.all (fun kv => propOk kv.1 kv.2) = true := by
  unfold wfHelpMeta at h
  cases hv : dictGet? m "softwareHelp" with
  | none => exact ⟨[], by simp [genHelpSeg, hv], rfl⟩
  | some v =>
      rw [hv] at h
      cases v with
      | map hm =>
          rw [Bool.and_eq_true] at h
          obtain ⟨hu, hn⟩ := h
          cases hvu : dictGet? hm "url" with
          | none => rw [hvu] at hu; exact absurd hu (by simp)
          | some u =>
              rw [hvu] at hu
              cases u with
              | str su =>
                  refine ⟨[("softwareHelp", .map
                      [("@type", .str "CreativeWork"), ("url", .str su),
                       ("name", dictGetD hm "name" (.str "Documentation"))])],
                    by simp [genHelpSeg, hv, hvu], ?_⟩
                  cases hvn : dictGet? hm "name" with
                  | none =>
                      have hgd : dictGetD hm "name" (Yaml.str "Documentation") =
                          Yaml.str "Documentation" := by simp [dictGetD, hvn]
                      rw [hgd]
                      simp only [List.all_cons, List.all_nil, Bool.and_true]
                      show helpOk (.map [("@type", .str "CreativeWork"),
                        ("url", .str su), ("name", .str "Documentation")]) = true
                      simp [helpOk, dictGet?, yamlBeq]
                      exact ⟨by decide, by decide⟩
                  | some nv =>
                      rw [hvn] at hn
                      cases nv with
                      | str sn =>
                          rw [Bool.and_eq_true] at hn
                          have hgd : dictGetD hm "name" (Yaml.str "Documentation") =
                              Yaml.str sn := by simp [dictGetD, hvn]
                          rw [hgd]
                          simp only [List.all_cons, List.all_nil, Bool.and_true]
                          show helpOk (.map [("@type", .str "CreativeWork"),
                            ("url", .str su), ("name", .str sn)]) = true
                          simp [helpOk, dictGet?, yamlBeq, hn.1, hn.2]
                      | null => exact absurd hn (by simp)
                      | bool b => exact absurd hn (by simp)
                      | int n => exact absurd hn (by simp)
                      | list xs => exact absurd hn (by simp)
                      | map km => exact absurd hn (by simp)
              | null => exact absurd hu (by simp)
              | bool b => exact absurd hu (by simp)
              | int n => exact absurd hu (by simp)
              | list xs => exact absurd hu (by simp)
              | map km => exact absurd hu (by simp)
      | null => exact absurd h (by simp)
      | bool b => exact absurd h (by simp)
      | int n => exact absurd h (by simp)
      | str s => exact absurd h (by simp)
      | list xs => exact absurd h (by simp)

/-- Under a well-formed maintainer entry the generator produces a
normalized entry satisfying the maintainer items subschema. -/
theorem genMaintainerEntry_ok {e : Yaml} (h : wfMaintEntry e = true) :
    ∃ e', genMaintainerEntry e = .ok e' ∧ maintainerEntryOk e' = true := by
  cases e with
  | map em =>
      simp only [wfMaintEntry, Bool.and_eq_true] at h
      obtain ⟨⟨⟨h1, h2⟩, h3⟩, h4⟩ := h
      obtain ⟨sn, hn⟩ : ∃ s, dictGet? em "name" = some (.str s) := by
        cases hn : dictGet? em "name" with
        | none => rw [hn] at h1; exact absurd h1 (by simp)
        | some nv =>
            rw [hn] at h1
            cases nv with
            | str s => exact ⟨s, rfl⟩
            | null => exact absurd h1 (by simp)
            | bool b => exact absurd h1 (by simp)
            | int n => exact absurd h1 (by simp)
            | list xs => exact absurd h1 (by simp)
            | map km => exact absurd h1 (by simp)
      obtain ⟨st, hty, henum⟩ : ∃ t, dictGetD em "@type" (.str "Person") = .str t ∧
          (t == "Person" || t == "Organization") = true := by
        cases ht : dictGet? em "@type" with
        | none => exact ⟨"Person", by simp [dictGetD, ht], by decide⟩
        | some tv =>
            rw [ht] at h2
            cases tv with
            | str t => exact ⟨t, by simp [dictGetD, ht], h2⟩
            | null => exact absurd h2 (by simp)
            | bool b => exact absurd h2 (by simp)
            | int n => exact absurd h2 (by simp)
            | list xs => exact absurd h2 (by simp)
            | map km => exact absurd h2 (by simp)
      have hiopt : (match dictGet? em "identifier" with
            | some i => [(("identifier" : String), i)]
            | none => []) = [] ∨
          ∃ s, (match dictGet? em "identifier" with
            | some i => [(("identifier" : String), i)]
            | none => []) = [("identifier", Yaml.str s)] := by
        cases hi : dictGet? em "identifier" with
        | none => left; rfl
        | some iv =>
            rw [hi] at h3
            cases iv with
            | str s => right; exact ⟨s, rfl⟩
            | null => exact absurd h3 (by simp)
            | bool b => exact absurd h3 (by simp)
            | int n => exact absurd h3 (by simp)
            | list xs => exact absurd h3 (by simp)
            | map km => exact absurd h3 (by simp)
      have huopt : (match dictGet? em "url" with
            | some u => [(("url" : String), u)]
            | none => []) = [] ∨
          ∃ s, (match dictGet? em "url" with
            | some u => [(("url" : String), u)]
            | none => []) = [("url", Yaml.str s)] := by
        cases hu : dictGet? em "url" with
        | none => left; rfl
        | some uv =>
            rw [hu] at h4
            cases uv with
            | str s => right; exact ⟨s, rfl⟩
            | null => exact absurd h4 (by simp)
            | bool b => exact absurd h4 (by simp)
            | int n => exact absurd h4 (by simp)
            | list xs => exact absurd h4 (by simp)
            | map km => exact absurd h4 (by simp)
      refine ⟨.map ([("@type", dictGetD em "@type" (.str "Person")),
          ("name", .str sn)] ++
          (match dictGet? em "identifier" with
           | some i => [(("identifier" : String), i)]
           | none => []) ++
          (match dictGet? em "url" with
           | some u => [(("url" : String), u)]
           | none => [])),
        by simp [genMaintainerEntry, hn], ?_⟩
      rw [hty]
      rcases hiopt with hie | ⟨si, hie⟩ <;> rcases huopt with hue | ⟨su, hue⟩ <;>
        rw [hie, hue] <;>
        simp [maintainerEntryOk, dictGet?, henum]
  | null => exact absurd h (by simp [wfMaintEntry])
  | bool b => exact absurd h (by simp [wfMaintEntry])
  | int n => exact absurd h (by simp [wfMaintEntry])
  | str s => exact absurd h (by simp [wfMaintEntry])
  | list xs => exact absurd h (by simp [wfMaintEntry])

/-- Entry-wise generation over a list of well-formed maintainer entries. -/
theorem genMaintainerEntries_ok {es : List Yaml} (h : es.all wfMaintEntry = true) :
    ∃ ms, genMaintainerEntries es = .ok ms ∧ ms.all maintainerEntryOk = true := by
  induction es with
  | nil => exact ⟨[], rfl, rfl⟩
  | cons e rest ih =>
      rw [List.all_cons, Bool.and_eq_true] at h
      obtain ⟨e', he, hok⟩ := genMaintainerEntry_ok h.1
      obtain ⟨ms, hms, hmsok⟩ := ih h.2
      refine ⟨e' :: ms, ?_, ?_⟩
      · simp [genMaintainerEntries, he, hms, Except.bind, Bind.bind, pure, Except.pure]
      · simp [List.all_cons, hok, hmsok]

/-- Under well-formed `maintainer` input the maintainer segment is
produced and satisfies the `maintainer` subschema. -/
theorem genMaintSeg_ok {m : List (String × Yaml)} (h : wfMaintainerMeta m = true) :
    ∃ ms, genMaintSeg m = .ok [("maintainer", .list ms)] ∧
      propOk "maintainer" (.list ms) = true := by
  unfold wfMaintainerMeta at h
  cases hv : dictGet? m "maintainer" with
  | none => rw [hv] at h; exact absurd h (by simp)
  | some v =>
      rw [hv] at h
      cases v with
      | list es =>
          obtain ⟨ms, hms, hmsok⟩ := genMaintainerEntries_ok h
          refine ⟨ms, ?_, hmsok⟩
          simp [genMaintSeg, hv, pyIter, hms, Except.bind, Bind.bind, pure, Except.pure]
      | null => exact absurd h (by simp)
      | bool b => exact absurd h (by simp)
      | int n => exact absurd h (by simp)
      | str s => exact absurd h (by simp)
      | map km => exact absurd h (by simp)

theorem propOk_id_str (s : String) : propOk "@id" (.str s) = true := rfl

theorem propOk_identifier_str (s : String) :
    propOk "identifier" (.str s) = identMatch s := rfl

/-- Under a complete, well-formed metadata mapping the generator succeeds
and its document — including the injected `applicationCategory`,
`operatingSystem` and `user_confirmed` defaults — satisfies the registry
schema. -/
theorem generate_ok_schemaValid {m : List (String × Yaml)}
    (h : wellFormedMetadata m = true) :
    ∃ doc, generate_yaml_template m = .ok (.map doc) ∧
      schemaValid (.map doc) = true := by
  simp only [wellFormedMetadata, Bool.and_eq_true] at h
  obtain ⟨⟨⟨⟨⟨⟨⟨⟨⟨⟨⟨⟨⟨hid, hname⟩, hdesc⟩, hrepo⟩, hurl⟩, hhelp⟩, hmaint⟩,
    hlic⟩, happ⟩, hkw⟩, hos⟩, hlang⟩, hfeat⟩, hconf⟩ := h
  obtain ⟨vid, hvid, hpid⟩ := wfReq_spec hid
  obtain ⟨sid, rfl, hidm⟩ := propOk_str_identifier hpid
  obtain ⟨vname, hvname, hpname⟩ := wfReq_spec hname
  obtain ⟨vdesc, hvdesc, hpdesc⟩ := wfReq_spec hdesc
  obtain ⟨vrepo, hvrepo, hprepo⟩ := wfReq_spec hrepo
  obtain ⟨vlic, hvlic, hplic⟩ := wfReq_spec hlic
  obtain ⟨vkw, hvkw, hpkw⟩ := wfReq_spec hkw
  obtain ⟨vlang, hvlang, hplang⟩ := wfReq_spec hlang
  obtain ⟨hs, hhs, hhsall⟩ := genHelpSeg_ok hhelp
  obtain ⟨ms, hms, hmsok⟩ := genMaintSeg_ok hmaint
  have hiseg : genIdentSeg m =
      [("@id", Yaml.str ("https://github.com/" ++ sid)), ("identifier", Yaml.str sid)] := by
    simp [genIdentSeg, hvid, pyStr]
  refine ⟨([("@context", Yaml.str "https://schema.org"),
      ("@type", Yaml.str "SoftwareApplication")] ++
      genIdentSeg m ++ genCopySeg m "name" ++ genCopySeg m "description" ++
      genCopySeg m "codeRepository" ++ genCopySeg m "url" ++ hs ++
      [("maintainer", Yaml.list ms)] ++ genCopySeg m "license" ++
      [("applicationCategory",
        dictGetD m "applicationCategory" (Yaml.str "HealthApplication"))] ++
      genCopySeg m "keywords" ++
      [("operatingSystem",
        dictGetD m "operatingSystem" (Yaml.list [Yaml.str "Cross-platform"]))] ++
      genCopySeg m "programmingLanguage" ++ genCopySeg m "featureList" ++
      [("user_confirmed", dictGetD m "user_confirmed" (Yaml.bool false))]),
    by simp [generate_yaml_template, hhs, hms, Except.bind, Bind.bind,
      pure, Except.pure], ?_⟩
  rw [hiseg, genCopySeg_some hvname, genCopySeg_some hvdesc, genCopySeg_some hvrepo,
    genCopySeg_some hvlic, genCopySeg_some hvkw, genCopySeg_some hvlang]
  unfold schemaValid
  rw [Bool.and_eq_true]
  constructor
  · refine List.all_eq_true.mpr ?_
    intro k hk
    simp only [requiredKeys, List.mem_cons, List.not_mem_nil, or_false] at hk
    rcases hk with rfl | rfl | rfl | rfl | rfl | rfl | rfl | rfl | rfl | rfl | rfl | rfl
    · exact dictGet?_isSome_of_mem
        (show ("@context", Yaml.str "https://schema.org") ∈ _ by simp)
    · exact dictGet?_isSome_of_mem
        (show ("@type", Yaml.str "SoftwareApplication") ∈ _ by simp)
    · exact dictGet?_isSome_of_mem
        (show ("@id", Yaml.str ("https://github.com/" ++ sid)) ∈ _ by simp)
    · exact dictGet?_isSome_of_mem
        (show ("identifier", Yaml.str sid) ∈ _ by simp)
    · exact dictGet?_isSome_of_mem (show ("name", vname) ∈ _ by simp)
    · exact dictGet?_isSome_of_mem (show ("description", vdesc) ∈ _ by simp)
    · exact dictGet?_isSome_of_mem (show ("codeRepository", vrepo) ∈ _ by simp)
    · exact dictGet?_isSome_of_mem
        (show ("maintainer", Yaml.list ms) ∈ _ by simp)
    · exact dictGet?_isSome_of_mem (show ("license", vlic) ∈ _ by simp)
    · exact dictGet?_isSome_of_mem
        (show ("applicationCategory",
          dictGetD m "applicationCategory" (Yaml.str "HealthApplication")) ∈ _ by simp)
    · exact dictGet?_isSome_of_mem (show ("keywords", vkw) ∈ _ by simp)
    · exact dictGet?_isSome_of_mem (show ("programmingLanguage", vlang) ∈ _ by simp)
  · have happ' : propOk "applicationCategory"
        (dictGetD m "applicationCategory" (Yaml.str "HealthApplication")) = true :=
      propOk_dictGetD happ (by decide)
    have hos' : propOk "operatingSystem"
        (dictGetD m "operatingSystem" (Yaml.list [Yaml.str "Cross-platform"])) = true :=
      propOk_dictGetD hos (by decide)
    have hconf' : propOk "user_confirmed"
        (dictGetD m "user_confirmed" (Yaml.bool false)) = true :=
      propOk_dictGetD hconf (by decide)
    simp [List.all_append, List.all_cons, List.all_nil, propOk_id_str,
      propOk_identifier_str, hidm, hpname, hpdesc, hprepo, hplic, hpkw, hplang,
      hhsall, hmsok, genCopySeg_all (wfOpt_spec hurl),
      genCopySeg_all (wfOpt_spec hfeat), happ', hos', hconf']
    exact ⟨by decide, by decide⟩

/-! ### The exact precondition zone of the generator (for the totality
claim): the two places it can raise. -/

/-- `generate_yaml_template` raises no exception when any `softwareHelp`
value is a mapping containing `"url"` and any `maintainer` value is a
list of mappings each containing `"name"`. -/
def genPrecondition (m : List (String × Yaml)) : Bool :=
  (match dictGet? m "softwareHelp" with
   | none => true
   | some (.map h) => (dictGet? h "url").isSome
   | some _ => false) &&
  (match dictGet? m "maintainer" with
   | none => true
   | some (.list es) => es.all (fun e => match e with
       | .map em => (dictGet? em "name").isSome
       | _ => false)
   | some _ => false)

theorem genHelpSeg_ok_of_url {m : List (String × Yaml)}
    (h : (match dictGet? m "softwareHelp" with
      | none => true
      | some (.map hm) => (dictGet? hm "url").isSome
      | some _ => false) = true) :
    ∃ hs, genHelpSeg m = .ok hs := by
  cases hv : dictGet? m "softwareHelp" with
  | none => exact ⟨[], by simp [genHelpSeg, hv]⟩
  | some v =>
      rw [hv] at h
      cases v with
      | map hm =>
          have h' : (dictGet? hm "url").isSome = true := h
          cases hu : dictGet? hm "url" with
          | none => rw [hu] at h'; exact absurd h' (by simp)
          | some u =>
              exact ⟨[("softwareHelp", .map
                  [("@type", .str "CreativeWork"), ("url", u),
                   ("name", dictGetD hm "name" (.str "Documentation"))])],
                by simp [genHelpSeg, hv, hu]⟩
      | null => exact absurd h (by simp)
      | bool b => exact absurd h (by simp)
      | int n => exact absurd h (by simp)
      | str s => exact absurd h (by simp)
      | list xs => exact absurd h (by simp)

theorem genMaintainerEntries_ok_of_names {es : List Yaml}
    (h : es.all (fun e => match e with
      | .map em => (dictGet? em "name").isSome
      | _ => false) = true) :
    ∃ ms, genMaintainerEntries es = .ok ms := by
  induction es with
  | nil => exact ⟨[], rfl⟩
  | cons e rest ih =>
      rw [List.all_cons, Bool.and_eq_true] at h
      obtain ⟨h1, h2⟩ := h
      obtain ⟨ms, hms⟩ := ih h2
      cases e with
      | map em =>
          have h1' : (dictGet? em "name").isSome = true := h1
          cases hn : dictGet? em "name" with
          | none => rw [hn] at h1'; exact absurd h1' (by simp)
          | some n =>
              refine ⟨Yaml.map ([("@type", dictGetD em "@type" (.str "Person")),
                  ("name", n)] ++
                  (match dictGet? em "identifier" with
                   | some i => [(("identifier" : String), i)]
                   | none => []) ++
                  (match dictGet? em "url" with
                   | some u => [(("url" : String), u)]
                   | none => [])) :: ms, ?_⟩
              simp [genMaintainerEntries, genMaintainerEntry, hn, hms,
                Except.bind, Bind.bind, pure, Except.pure]
      | null => exact absurd h1 (by simp)
      | bool b => exact absurd h1 (by simp)
      | int n => exact absurd h1 (by simp)
      | str s => exact absurd h1 (by simp)
      | list xs => exact absurd h1 (by simp)

theorem genMaintSeg_ok_of_names {m : List (String × Yaml)}
    (h : (match dictGet? m "maintainer" with
      | none => true
      | some (.list es) => es.all (fun e => match e with
          | .map em => (dictGet? em "name").isSome
          | _ => false)
      | some _ => false) = true) :
    ∃ seg, genMaintSeg m = .ok seg := by
  cases hv : dictGet? m "maintainer" with
  | none => exact ⟨[], by simp [genMaintSeg, hv]⟩
  | some v =>
      rw [hv] at h
      cases v with
      | list es =>
          obtain ⟨ms, hms⟩ := genMaintainerEntries_ok_of_names h
          exact ⟨[("maintainer", .list ms)],
            by simp [genMaintSeg, hv, pyIter, hms, Except.bind, Bind.bind, pure, Except.pure]⟩
      | null => exact absurd h (by simp)
      | bool b => exact absurd h (by simp)
      | int n => exact absurd h (by simp)
      | str s => exact absurd h (by simp)
      | map km => exact absurd h (by simp)

theorem generate_ok_of_precondition {m : List (String × Yaml)}
    (h : genPrecondition m = true) : ∃ doc, generate_yaml_template m = .ok doc := by
  rw [genPrecondition, Bool.and_eq_true] at h
  obtain ⟨hs, hhs⟩ := genHelpSeg_ok_of_url h.1
  obtain ⟨seg, hseg⟩ := genMaintSeg_ok_of_names h.2
  refine ⟨.map ([("@context", Yaml.str "https://schema.org"),
      ("@type", Yaml.str "SoftwareApplication")] ++
      genIdentSeg m ++ genCopySeg m "name" ++ genCopySeg m "description" ++
      genCopySeg m "codeRepository" ++ genCopySeg m "url" ++ hs ++ seg ++
      genCopySeg m "license" ++
      [("applicationCategory",
        dictGetD m "applicationCategory" (Yaml.str "HealthApplication"))] ++
      genCopySeg m "keywords" ++
      [("operatingSystem",
        dictGetD m "operatingSystem" (Yaml.list [Yaml.str "Cross-platform"]))] ++
      genCopySeg m "programmingLanguage" ++ genCopySeg m "featureList" ++
      [("user_confirmed", dictGetD m "user_confirmed" (Yaml.bool false))]), ?_⟩
  simp [generate_yaml_template, hhs, hseg, Except.bind, Bind.bind,
    pure, Except.pure]

/-! ### The claims -/

/-- C1: For every document text and endpoint, the Submitter
(`submit_to_registry`) performs the HTTP POST only if the document
validates as valid; if validation returns valid=false it returns a
failure carrying the validation errors and issues no network call, so a
document is never submitted to the network while it is invalid. -/
theorem C1_submit_validates_before_post (content : Option Yaml) (ep : String)
    (net : HttpOutcome) :
    ((validate_yaml_specification content).valid = false →
      submit_to_registry content ep net =
        ({ success := false, message := "Validation failed before submission",
           submission_id := none,
           errors := (validate_yaml_specification content).errors.map Yaml.str }, [])) ∧
    ((validate_yaml_specification content).valid = true →
      ∃ v, content = some v ∧
        (submit_to_registry content ep net).2 = [.httpPost ep v]) :=
  ⟨submit_invalid_eq content ep net, submit_valid_trace content ep net⟩

/-- Witness for C1 at a schema-invalid document and a network that would
fail: validation fails, so the result is the validation failure and the
effect trace is empty. -/
theorem C1_witness :
    submit_to_registry (some (.map [("license", .str "MIT")]))
        "https://api.biocontext.ai/registry/submit" (.netError "refused") =
      ({ success := false, message := "Validation failed before submission",
         submission_id := none, errors := [.str schemaErrorMsg] }, []) :=
  (C1_submit_validates_before_post (some (.map [("license", .str "MIT")]))
    "https://api.biocontext.ai/registry/submit" (.netError "refused")).1 (by rfl)

/-- C2: For every file whose stored document has the confirmation flag
already true, `confirm_and_submit_to_registry_tool` returns a failure
with an explicit already-confirmed error, does not rewrite the file, and
issues no network call. -/
theorem C2_confirm_refuses_already_confirmed (path : String)
    (kvs : List (String × Yaml)) (ep : String) (net : HttpOutcome)
    (h : dictGet? kvs "user_confirmed" = some (.bool true)) :
    confirm_and_submit_to_registry_tool path (some (.map kvs)) ep net =
      ({ success := false,
         message := "YAML file already has user_confirmed: true. Submission may have already been attempted.",
         submission_id := none,
         errors := [.str "File already confirmed for submission"] }, []) :=
  confirm_refuses_confirmed path kvs ep net (by simp [dictGetD, h, Yaml.falsy])

/-- Witness for C2 at a file whose mapping carries
`user_confirmed: true`. -/
theorem C2_witness :
    confirm_and_submit_to_registry_tool "meta.yaml"
        (some (.map [("user_confirmed", .bool true)]))
        "https://api.biocontext.ai/registry/submit" (.netError "down") =
      ({ success := false,
         message := "YAML file already has user_confirmed: true. Submission may have already been attempted.",
         submission_id := none,
         errors := [.str "File already confirmed for submission"] }, []) :=
  C2_confirm_refuses_already_confirmed "meta.yaml" [("user_confirmed", .bool true)]
    "https://api.biocontext.ai/registry/submit" (.netError "down") (by rfl)

/-- C3: For every document text whose parsed document satisfies the
registry schema and whose identifier matches the owner/repository
pattern, `validate_yaml_specification` returns valid=true and an empty
error list (warnings and suggestions may still be present). -/
theorem C3_schema_valid_validates (kvs : List (String × Yaml)) (s : String)
    (h1 : schemaValid (.map kvs) = true)
    (h2 : dictGet? kvs "identifier" = some (.str s))
    (h3 : identMatch s = true) :
    (validate_yaml_specification (some (.map kvs))).valid = true ∧
    (validate_yaml_specification (some (.map kvs))).errors = [] := by
  rw [validate_eq_of_schemaValid h1]
  exact ⟨rfl, rfl⟩

/-- Witness for C3 at the complete sample document. -/
theorem C3_witness :
    (validate_yaml_specification (some (.map sampleDoc))).valid = true ∧
    (validate_yaml_specification (some (.map sampleDoc))).errors = [] :=
  C3_schema_valid_validates sampleDoc "test/test-mcp" (by decide) (by rfl) (by decide)

/-- C4: For every complete, well-formed metadata mapping, the document
produced by `generate_yaml_template` — including the always-injected
`applicationCategory`, `operatingSystem` and `user_confirmed` defaults —
validates as valid=true under `validate_yaml_specification`.  (The
source schema does declare `user_confirmed` among its properties, so the
injected flag passes `additionalProperties: false`.) -/
theorem C4_generate_validate_roundtrip (m : List (String × Yaml))
    (h : wellFormedMetadata m = true) :
    ∃ doc, generate_yaml_template m = .ok doc ∧
      (validate_yaml_specification (some doc)).valid = true ∧
      (validate_yaml_specification (some doc)).errors = [] := by
  obtain ⟨d, hg, hsv⟩ := generate_ok_schemaValid h
  refine ⟨.map d, hg, ?_⟩
  rw [validate_eq_of_schemaValid hsv]
  exact ⟨rfl, rfl⟩

/-- A complete, well-formed metadata mapping, for the C4 witness. -/
def sampleMetadata : List (String × Yaml) :=
  [("identifier", .str "test/test-mcp"),
   ("name", .str "Test MCP"),
   ("description", .str "A test MCP server for validation"),
   ("codeRepository", .str "https://github.com/test/test-mcp"),
   ("maintainer", .list [.map [("name", .str "Test User")]]),
   ("license", .str "https://spdx.org/licenses/MIT.html"),
   ("keywords", .list [.str "test", .str "mcp"]),
   ("programmingLanguage", .list [.str "Python"])]

/-- Witness for C4 at the sample metadata. -/
theorem C4_witness :
    ∃ doc, generate_yaml_template sampleMetadata = .ok doc ∧
      (validate_yaml_specification (some doc)).valid = true ∧
      (validate_yaml_specification (some doc)).errors = [] :=
  C4_generate_validate_roundtrip sampleMetadata (by decide)

/-- C5 counterexample: a parseable, non-empty document with a non-SPDX
license that fails the schema check receives no license warning at all —
`jsonschema.validate` raises, the handler records the schema error, and
every supplementary check is skipped — refuting the claim that the
supplementary rules run independently of the schema check's outcome. -/
theorem C5_counterexample :
    validate_yaml_specification (some (.map [("license", .str "MIT")])) =
      ⟨false, [schemaErrorMsg], [], []⟩ := by decide

/-- C5 (amended): the supplementary rules run only when the schema check
passes; a parseable, non-empty document failing the schema check yields
exactly the single schema error, with no supplementary warnings, errors
or suggestions. -/
theorem C5_supplementary_only_after_schema (v : Yaml)
    (h1 : v.falsy = false) (h2 : schemaValid v = false) :
    validate_yaml_specification (some v) = ⟨false, [schemaErrorMsg], [], []⟩ := by
  unfold validate_yaml_specification validateParsed
  simp [h1, h2]

/-- Witness for the amended C5 at a parseable non-empty non-mapping
document. -/
theorem C5_witness :
    validate_yaml_specification (some (.list [.str "x"])) =
      ⟨false, [schemaErrorMsg], [], []⟩ :=
  C5_supplementary_only_after_schema (.list [.str "x"]) (by rfl) (by rfl)

/-- C6: For every document text that validates as invalid,
`submit_to_registry_tool` returns a failure with the validation result
attached and requires_confirmation=false, and writes no file. -/
theorem C6_prepare_invalid_writes_nothing (content : Option Yaml)
    (ep pp : String)
    (h : (validate_yaml_specification content).valid = false) :
    submit_to_registry_tool content ep pp =
      ({ success := false,
         message := "Validation failed - cannot submit invalid YAML",
         validation_result := validate_yaml_specification content,
         requires_confirmation := false, yaml_file := none }, []) := by
  unfold submit_to_registry_tool
  simp [h]

/-- Witness for C6 at an empty document. -/
theorem C6_witness :
    submit_to_registry_tool (some .null)
        "https://api.biocontext.ai/registry/submit" "." =
      ({ success := false,
         message := "Validation failed - cannot submit invalid YAML",
         validation_result := ⟨false, [emptyErrorMsg], [], []⟩,
         requires_confirmation := false, yaml_file := none }, []) :=
  C6_prepare_invalid_writes_nothing (some .null)
    "https://api.biocontext.ai/registry/submit" "." (by rfl)

/-- C7 counterexample: the claim says `generate_yaml_template` succeeds
on every mapping input, even when a maintainer entry lacks a name — but
on the mapping `{"maintainer": [{}]}` the source evaluates
`maintainer["name"]` and raises `KeyError`. -/
theorem C7_counterexample :
    generate_yaml_template [("maintainer", .list [.map []])] =
      .error "KeyError: 'name'" := by rfl

/-- C7 (amended): `generate_yaml_template` succeeds and returns a
document for every mapping input in which any `softwareHelp` value is a
mapping containing `url` and any `maintainer` value is a list of
mappings each containing `name`; with such inputs, missing required
fields merely produce an incomplete document.  (A maintainer entry
without a name, or a `softwareHelp` without a url, instead raises
`KeyError`.) -/
theorem C7_generate_total_on_shaped_input (m : List (String × Yaml))
    (h : genPrecondition m = true) :
    ∃ doc, generate_yaml_template m = .ok doc :=
  generate_ok_of_precondition h

/-- Witness for the amended C7: an input missing every required document
field still generates (an incomplete document). -/
theorem C7_witness :
    ∃ doc, generate_yaml_template
      [("maintainer", .list [.map [("name", .str "X")]])] = .ok doc :=
  C7_generate_total_on_shaped_input
    [("maintainer", .list [.map [("name", .str "X")]])] (by decide)

/-- The license warning never comes from the repository-host check. -/
theorem licenseWarn_not_mem_repoWarn (kvs : List (String × Yaml)) :
    licenseWarningMsg ∉ repoWarnList kvs := by
  unfold repoWarnList
  cases hr : dictGet? kvs "codeRepository" with
  | none => simp
  | some v =>
      cases v with
      | str s =>
          by_cases hm : repoUrlMatch false s = true
          · simp [hm]
          · simp only [Bool.not_eq_true] at hm
            simp [hm]
            decide
      | null => simp
      | bool b => simp
      | int n => simp
      | list xs => simp
      | map km => simp

/-- C8: For every otherwise schema-valid complete document, validation
with license `https://spdx.org/licenses/MIT.html` produces no license
warning, while license `MIT` produces a license warning but still yields
valid=true — the license-prefix rule is advisory, not invalidating. -/
theorem C8_license_rule_advisory (kvs : List (String × Yaml))
    (h : schemaValid (.map kvs) = true) :
    (dictGet? kvs "license" = some (.str "https://spdx.org/licenses/MIT.html") →
      licenseWarningMsg ∉
        (validate_yaml_specification (some (.map kvs))).warnings) ∧
    (dictGet? kvs "license" = some (.str "MIT") →
      licenseWarningMsg ∈
        (validate_yaml_specification (some (.map kvs))).warnings ∧
      (validate_yaml_specification (some (.map kvs))).valid = true) := by
  rw [validate_eq_of_schemaValid h]
  constructor
  · intro hl
    have hwl : licenseWarnList kvs = [] := by
      simp [licenseWarnList, hl,
        show strStartsWith "https://spdx.org/licenses/MIT.html"
          "https://spdx.org/licenses/" = true by decide]
    simp only [hwl, List.nil_append]
    exact licenseWarn_not_mem_repoWarn kvs
  · intro hl
    have hwl : licenseWarnList kvs = [licenseWarningMsg] := by
      simp [licenseWarnList, hl,
        show strStartsWith "MIT" "https://spdx.org/licenses/" = false by decide]
    exact ⟨by simp [hwl], rfl⟩

/-- Witness for C8: both license variants of the sample document. -/
theorem C8_witness :
    (licenseWarningMsg ∉
      (validate_yaml_specification (some (.map sampleDoc))).warnings) ∧
    (licenseWarningMsg ∈
      (validate_yaml_specification
        (some (.map (dictSet sampleDoc "license" (.str "MIT"))))).warnings ∧
     (validate_yaml_specification
        (some (.map (dictSet sampleDoc "license" (.str "MIT"))))).valid = true) :=
  ⟨(C8_license_rule_advisory sampleDoc (by decide)).1 (by rfl),
   (C8_license_rule_advisory (dictSet sampleDoc "license" (.str "MIT"))
     (by decide)).2 (by rfl)⟩

/-- C9: `confirm_and_submit_to_registry_tool` sets user_confirmed=true
and rewrites the file before performing any validation or network
attempt; consequently, for every readable unconfirmed file whose
document is invalid (or whose submission attempt fails on the network),
the operation returns a failure while the file on disk is left in the
CONFIRMED state, so a later retry is refused by the already-confirmed
guard even though nothing was ever submitted. -/
theorem C9_confirm_flags_before_validating (path : String)
    (kvs : List (String × Yaml)) (ep : String) (net : HttpOutcome)
    (hflag : (dictGetD kvs "user_confirmed" (.bool false)).falsy = true) :
    ((confirm_and_submit_to_registry_tool path (some (.map kvs)) ep net).2.head? =
      some (.writeFile path (.map (dictSet kvs "user_confirmed" (.bool true))))) ∧
    ((validate_yaml_specification
        (some (.map (dictSet kvs "user_confirmed" (.bool true))))).valid = false →
      (confirm_and_submit_to_registry_tool path (some (.map kvs)) ep net).1.success
        = false ∧
      (confirm_and_submit_to_registry_tool path (some (.map kvs)) ep net).2 =
        [.writeFile path (.map (dictSet kvs "user_confirmed" (.bool true)))]) ∧
    (∀ msg, net = .netError msg →
      (confirm_and_submit_to_registry_tool path (some (.map kvs)) ep net).1.success
        = false) ∧
    (∀ path' ep' net',
      confirm_and_submit_to_registry_tool path'
          (some (.map (dictSet kvs "user_confirmed" (.bool true)))) ep' net' =
        ({ success := false,
           message := "YAML file already has user_confirmed: true. Submission may have already been attempted.",
           submission_id := none,
           errors := [.str "File already confirmed for submission"] }, [])) := by
  refine ⟨?_, ?_, ?_, ?_⟩
  · simp [confirm_and_submit_to_registry_tool, hflag]
  · intro hinv
    rw [show confirm_and_submit_to_registry_tool path (some (.map kvs)) ep net =
        ((submit_to_registry
            (some (.map (dictSet kvs "user_confirmed" (.bool true)))) ep net).1,
          .writeFile path (.map (dictSet kvs "user_confirmed" (.bool true))) ::
          (submit_to_registry
            (some (.map (dictSet kvs "user_confirmed" (.bool true)))) ep net).2)
      from by simp [confirm_and_submit_to_registry_tool, hflag]]
    rw [submit_invalid_eq _ _ _ hinv]
    exact ⟨rfl, rfl⟩
  · intro msg hmsg
    subst hmsg
    rw [show confirm_and_submit_to_registry_tool path (some (.map kvs)) ep
          (.netError msg) =
        ((submit_to_registry
            (some (.map (dictSet kvs "user_confirmed" (.bool true)))) ep
            (.netError msg)).1,
          .writeFile path (.map (dictSet kvs "user_confirmed" (.bool true))) ::
          (submit_to_registry
            (some (.map (dictSet kvs "user_confirmed" (.bool true)))) ep
            (.netError msg)).2)
      from by simp [confirm_and_submit_to_registry_tool, hflag]]
    cases hv : (validate_yaml_specification
        (some (.map (dictSet kvs "user_confirmed" (.bool true))))).valid with
    | false => rw [submit_invalid_eq _ _ _ hv]
    | true => simp [submit_to_registry, hv]
  · intro path' ep' net'
    refine confirm_refuses_confirmed path' _ ep' net' ?_
    simp [dictGetD, dictGet?_dictSet_self, Yaml.falsy]

/-- Witness for C9 at an unconfirmed, schema-invalid one-field file and a
failing network: the tool fails, yet the file trace shows the CONFIRMED
document written, and retrying on that written document is refused. -/
theorem C9_witness :
    ((confirm_and_submit_to_registry_tool "meta.yaml"
        (some (.map [("name", .str "T")])) "ep" (.netError "down")).1.success
      = false ∧
     (confirm_and_submit_to_registry_tool "meta.yaml"
        (some (.map [("name", .str "T")])) "ep" (.netError "down")).2 =
      [.writeFile "meta.yaml"
        (.map [("name", .str "T"), ("user_confirmed", .bool true)])]) ∧
    confirm_and_submit_to_registry_tool "meta.yaml"
        (some (.map [("name", .str "T"), ("user_confirmed", .bool true)]))
        "ep" (.netError "down") =
      ({ success := false,
         message := "YAML file already has user_confirmed: true. Submission may have already been attempted.",
         submission_id := none,
         errors := [.str "File already confirmed for submission"] }, []) :=
  ⟨(C9_confirm_flags_before_validating "meta.yaml" [("name", .str "T")] "ep"
      (.netError "down") (by rfl)).2.1 (by rfl),
   (C9_confirm_flags_before_validating "meta.yaml" [("name", .str "T")] "ep"
      (.netError "down") (by rfl)).2.2.2 "meta.yaml" "ep" (.netError "down")⟩

/-- C10: For every existing file whose content parses to a non-mapping
YAML value (a list, a scalar, or an empty document), the status tool
returns success=false with file_exists=false — reporting the file as
non-existent even though it exists — instead of raising: `yaml_data.get`
raises `AttributeError`, and the generic handler hard-codes
`file_exists: False`. -/
theorem C10_status_nonmapping_reports_nonexistent (path : String) (v : Yaml)
    (h : ∀ kvs, v ≠ .map kvs) :
    (check_yaml_file_status_tool path (some (some v))).success = false ∧
    (check_yaml_file_status_tool path (some (some v))).file_exists = false := by
  cases v with
  | map kvs => exact absurd rfl (h kvs)
  | null => exact ⟨rfl, rfl⟩
  | bool b => exact ⟨rfl, rfl⟩
  | int n => exact ⟨rfl, rfl⟩
  | str s => exact ⟨rfl, rfl⟩
  | list xs => exact ⟨rfl, rfl⟩

/-- Witness for C10 at an existing file parsing to a list. -/
theorem C10_witness :
    (check_yaml_file_status_tool "meta.yaml"
      (some (some (.list [.str "a"])))).success = false ∧
    (check_yaml_file_status_tool "meta.yaml"
      (some (some (.list [.str "a"])))).file_exists = false :=
  C10_status_nonmapping_reports_nonexistent "meta.yaml" (.list [.str "a"])
    (fun _ h => Yaml.noConfusion h)
